import Mathlib

/-
Verification development for the godcr wallet session-lifecycle core.

Embedded source files:
 - cli wallet lifecycle (createWallet, openWallet, attemptToCreateWallet,
   syncBlockChain) from the cli package;
 - the shutdown orchestration in main.go (beginShutdown channel,
   shutdownOps, opError, listenForShutdown, handleShutdown, and the body
   of main from the point where the shutdown goroutines are spawned).

Modelling conventions:
 - Go errors are values of an inductive GoError; context.Canceled is the
   distinguished constructor GoError.ctxCanceled; fmt.Errorf-produced
   errors carry their message.
 - Middleware calls are logged in a list of MwCall values so that
   "never calls X" claims are statements about the produced call log.
 - Terminal input is a list of lines consumed in order by the prompts.
 - select races between a spawned task and ctx.Done() are resolved by an
   explicit Bool parameter saying which branch settled first; a spawned
   task abandoned by cancellation still completes in the background
   (cooperative cancellation), so its middleware calls stay in the log.
 - String functions mirror the Go standard library restricted to ASCII
   data (strings.EqualFold does Unicode simple folding; the inputs in
   this development are ASCII, where the two agree).
-/

inductive GoError where
  | ctxCanceled
  | errorf (msg : String)
  | external (msg : String)
  deriving Repr, DecidableEq

/-- Middleware operations that the lifecycle functions may invoke,
recorded in call order. -/
inductive MwCall where
  | walletExists
  | openWallet
  | generateNewWalletSeed
  | createWallet (passphrase seed : String)
  | syncBlockChain
  deriving Repr, DecidableEq

/-- Behaviour of the external WalletMiddleware collaborator for one run:
the result of each capability the embedded code may call.  syncStart is
the immediate return value of SyncBlockChain; syncTerminal is the error
delivered to the SyncEnded listener callback when the sync did start
(none means the sync succeeded). -/
structure WalletMiddleware where
  walletExists : Except GoError Bool
  openWallet : Option GoError
  generateNewWalletSeed : Except GoError String
  createWallet : String → String → Option GoError
  syncStart : Option GoError
  syncTerminal : Option GoError
  netType : String

/-- ASCII restriction of Go's unicode.IsSpace used by strings.TrimSpace. -/
def isGoSpace (c : Char) : Bool :=
  c == ' ' || c == '\t' || c == '\n' || c == '\r'

/-- Model of strings.TrimSpace (ASCII whitespace). -/
def TrimSpace (s : String) : String :=
  ⟨((s.data.dropWhile isGoSpace).reverse.dropWhile isGoSpace).reverse⟩

/-- ASCII lower-casing of a single character. -/
def toLowerAscii (c : Char) : Char :=
  if 65 ≤ c.toNat && c.toNat ≤ 90 then Char.ofNat (c.toNat + 32) else c

/-- Model of strings.EqualFold restricted to ASCII case folding. -/
def EqualFold (s t : String) : Bool :=
  s.data.map toLowerAscii == t.data.map toLowerAscii

/-- Model of strings.Trim(s, quote): removes every leading and trailing
double-quote character. -/
def trimQuotes (s : String) : String :=
  ⟨((s.data.dropWhile (· == '"')).reverse.dropWhile (· == '"')).reverse⟩

/-- Follows the claim words only, for comparison with the source: strip a
single pair of surrounding double quotes (one leading and one trailing
quote, removed only when both are present). -/
def stripOneQuotePair (s : String) : String :=
  match s.data with
  | c :: rest@(_ :: _) =>
      if c == '"' && rest.getLast? == some '"' then ⟨rest.dropLast⟩ else s
  | _ => s

/-- Follows the claim words only, for comparison with the source
backupValidator: accept when, after trimming whitespace and stripping a
single pair of surrounding double quotes, the input equals OK
case-insensitively. -/
def specBackupAccepts (s : String) : Bool :=
  EqualFold "OK" (stripOneQuotePair (TrimSpace s))

/-- Modelled from the spec: terminalprompt.RequestInput (the terminalprompt
package is not under src).  Blocking line input with validation: on
validator rejection the prompt repeats with the next line; the input list
stands for successive entered lines, and exhausting it models a read
error.  Returns the accepted line as entered together with the unconsumed
lines. -/
def RequestInput (validator : String → Option String) :
    List String → Except GoError (String × List String)
  | [] => .error (.external "error receiving input")
  | x :: rest =>
    match validator x with
    | none => .ok (x, rest)
    | some _ => RequestInput validator rest

/-- Modelled from the spec: terminalprompt.RequestInputSecure (not under
src), the suppressed-echo variant of RequestInput with the same
validation/re-prompt semantics. -/
def RequestInputSecure (validator : String → Option String) :
    List String → Except GoError (String × List String)
  | [] => .error (.external "error receiving input")
  | x :: rest =>
    match validator x with
    | none => .ok (x, rest)
    | some _ => RequestInputSecure validator rest

/-- Modelled from the spec: terminalprompt.EmptyValidator (not under src),
the validator used at the secure passphrase prompts.  The spec requires
the prompt to accept only a non-empty passphrase, so the validator
rejects the empty string and accepts everything else. -/
def EmptyValidator (value : String) : Option String :=
  if value = "" then some "input cannot be empty" else none

/-- Source backupValidator (cli createWallet): TrimSpace, trim all
surrounding double quotes, then case-insensitive comparison with OK. -/
def backupValidator (userResponse : String) : Option String :=
  let u := trimQuotes (TrimSpace userResponse)
  if EqualFold "OK" u then none
  else some "invalid response, try again"

/-- Source validateUserResponse (cli attemptToCreateWallet): TrimSpace,
trim all surrounding double quotes, then accept empty, y/Y, or N/n. -/
def validateUserResponse (userResponse : String) : Option String :=
  let u := trimQuotes (TrimSpace userResponse)
  if u == "" || EqualFold "y" u || EqualFold "N" u then none
  else some "invalid option, try again"

/-- Values sent on the syncDone channel by the spawned sync task: if the
SyncBlockChain call itself returns an error the task sends that error;
otherwise the SyncEnded listener callback sends the terminal error (none
on success).  Exactly one value is sent per attempt. -/
def syncDoneSends (mw : WalletMiddleware) : List (Option GoError) :=
  match mw.syncStart with
  | some e => [some e]
  | none => [mw.syncTerminal]

/-- Source syncBlockChain: spawn the sync task, then select between
ctx.Done() and the syncDone channel.  cancelWins says which select branch
settled first. -/
def syncBlockChain (mw : WalletMiddleware) (cancelWins : Bool) :
    Except GoError Unit × List MwCall :=
  if cancelWins then (.error .ctxCanceled, [.syncBlockChain])
  else
    match mw.syncStart with
    | some e => (.error e, [.syncBlockChain])
    | none =>
      match mw.syncTerminal with
      | some e => (.error e, [.syncBlockChain])
      | none => (.ok (), [.syncBlockChain])

/-- Source createWallet: existence check, two secure passphrase prompts,
mismatch check, seed generation, backup acknowledgment prompt, middleware
CreateWallet, then first blockchain sync.  Returns the Go return value
together with the middleware call log. -/
def createWallet (mw : WalletMiddleware) (syncCancelWins : Bool)
    (inputs : List String) : Except GoError Unit × List MwCall :=
  match mw.walletExists with
  | .error e => (.error e, [.walletExists])
  | .ok true => (.error (.errorf "wallet already exists"), [.walletExists])
  | .ok false =>
    match RequestInputSecure EmptyValidator inputs with
    | .error e => (.error e, [.walletExists])
    | .ok (passphrase, rest1) =>
      match RequestInputSecure EmptyValidator rest1 with
      | .error e => (.error e, [.walletExists])
      | .ok (confirmPassphrase, rest2) =>
        if passphrase = confirmPassphrase then
          match mw.generateNewWalletSeed with
          | .error e => (.error e, [.walletExists, .generateNewWalletSeed])
          | .ok seed =>
            match RequestInput backupValidator rest2 with
            | .error e => (.error e, [.walletExists, .generateNewWalletSeed])
            | .ok (_, _) =>
              match mw.createWallet passphrase seed with
              | some e =>
                  (.error e,
                   [.walletExists, .generateNewWalletSeed,
                    .createWallet passphrase seed])
              | none =>
                  ((syncBlockChain mw syncCancelWins).1,
                   [.walletExists, .generateNewWalletSeed,
                    .createWallet passphrase seed] ++
                     (syncBlockChain mw syncCancelWins).2)
        else (.error (.errorf "passphrases do not match"), [.walletExists])

/-- Source attemptToCreateWallet: offer prompt with validateUserResponse;
the decline check compares the raw accepted answer (no normalization)
against the empty string and, case-insensitively, N. -/
def attemptToCreateWallet (mw : WalletMiddleware) (syncCancelWins : Bool)
    (inputs : List String) : Except GoError Unit × List MwCall :=
  match RequestInput validateUserResponse inputs with
  | .error e => (.error e, [])
  | .ok (userResponse, rest) =>
    if userResponse == "" || EqualFold "N" userResponse then
      (.error (.errorf "Wallet doesn't exist"), [])
    else createWallet mw syncCancelWins rest

/-- Result of the goroutine spawned by openWallet (the local variables it
assigns plus the middleware calls it performs): existence check, then
OpenWallet when a wallet was found. -/
structure LoadWalletTask where
  err : Option GoError
  errMsg : String
  noWalletFound : Bool
  calls : List MwCall

def loadWalletTask (mw : WalletMiddleware) : LoadWalletTask :=
  match mw.walletExists with
  | .error e =>
      ⟨some e, "Error checking " ++ mw.netType ++ " wallet", false,
       [.walletExists]⟩
  | .ok false => ⟨none, "", true, [.walletExists]⟩
  | .ok true =>
    match mw.openWallet with
    | some e =>
        ⟨some e, "Failed to open " ++ mw.netType ++ " wallet", false,
         [.walletExists, .openWallet]⟩
    | none => ⟨none, "", false, [.walletExists, .openWallet]⟩

/-- Source openWallet: spawn loadWalletTask, select between its done
channel and ctx.Done().  openCancelWins says which branch settled first;
a cancelled caller returns ctx.Err() while the abandoned task still
completes in the background (its calls stay in the log). -/
def openWallet (mw : WalletMiddleware)
    (openCancelWins syncCancelWins : Bool) (inputs : List String) :
    Except GoError Unit × List MwCall :=
  let task := loadWalletTask mw
  if openCancelWins then (.error .ctxCanceled, task.calls)
  else if task.noWalletFound then
    ((attemptToCreateWallet mw syncCancelWins inputs).1,
     task.calls ++ (attemptToCreateWallet mw syncCancelWins inputs).2)
  else
    match task.err with
    | some e => (.error e, task.calls)
    | none => (.ok (), task.calls)

example : backupValidator "  \"OK\"  " = none := by decide
example : backupValidator "no" ≠ none := by decide
example : validateUserResponse " y " = none := by decide
example : EqualFold "N" " n " = false := by decide

/-
Shutdown orchestration model (main.go).

The modelled fragment is the body of main from the point where the
shutdown goroutines are spawned (the wait group, the interrupt listener,
handleShutdown, the mode dispatch and the final Wait), plus
listenForShutdown and handleShutdown.  The three run modes dispatch as in
the source: http sends on beginShutdown only when the server returned an
error and ctx.Err() is still nil; cli sends unconditionally after
cli.Run returns; desktop neither records an error nor sends.

Channel semantics: beginShutdown is unbuffered, so a send step requires
the handler to be blocked at its single receive; the interrupt channel
has capacity one and further signals are dropped while it is full.
wg.Add(1) (executed by handleShutdown before its receive) is modelled as
the initial wait-group count of 1.  Process exit: handleShutdown calls
os.Exit(1) when it sees a recorded error; the main goroutine returning
exits with status 0; whichever happens first ends the run (no step fires
after exited is set).  Hook with id 0 stands for the registered context
cancel function and sets ctxCancelled when executed; other hook ids have
no modelled side effect (shutdown hooks are zero-argument functions
without a return value).  The mainStep action's payload is the value
returned by the mode's blocking entry call.
-/

inductive Mode where
  | cli
  | http
  | desktop
  deriving Repr, DecidableEq

inductive MainPC where
  | running
  | sending
  | waiting
  | returned
  deriving Repr, DecidableEq

inductive ListenerPC where
  | awaitFirst
  | sendSignal
  | loop
  deriving Repr, DecidableEq

inductive HandlerPC where
  | awaitSignal
  | running (remaining : List Nat)
  | checkErr
  | done
  deriving Repr, DecidableEq

inductive LogMsg where
  | receivedSignal
  | alreadyShuttingDown
  deriving Repr, DecidableEq

inductive Act where
  | interrupt
  | listener
  | handler
  | mainStep (modeResult : Option GoError)
  deriving Repr, DecidableEq

structure MainState where
  mode : Mode
  mainPC : MainPC
  listenerPC : ListenerPC
  handlerPC : HandlerPC
  ops : List Nat
  hooksRun : List Nat
  pendingInterrupt : Bool
  opError : Option GoError
  ctxCancelled : Bool
  wgCount : Nat
  logs : List LogMsg
  exited : Option Nat
  deriving Repr, DecidableEq

/-- OS delivery of an interrupt/termination signal into the capacity-one
signal channel; a signal arriving while one is already pending is
dropped. -/
def stepInterrupt (s : MainState) : MainState :=
  if s.pendingInterrupt then s else { s with pendingInterrupt := true }

/-- One step of the listenForShutdown goroutine. -/
def stepListener (s : MainState) : MainState :=
  match s.listenerPC with
  | .awaitFirst =>
    if s.pendingInterrupt then
      { s with pendingInterrupt := false, listenerPC := .sendSignal,
               logs := .receivedSignal :: s.logs }
    else s
  | .sendSignal =>
    match s.handlerPC with
    | .awaitSignal =>
        { s with listenerPC := .loop, handlerPC := .running s.ops }
    | _ => s
  | .loop =>
    if s.pendingInterrupt then
      { s with pendingInterrupt := false,
               logs := .alreadyShuttingDown :: s.logs }
    else s

/-- One step of the handleShutdown goroutine: receive (via a sender's
rendezvous), run the hooks one at a time in registration order, wg.Done,
then the final opError check. -/
def stepHandler (s : MainState) : MainState :=
  match s.handlerPC with
  | .awaitSignal => s
  | .running [] => { s with handlerPC := .checkErr, wgCount := s.wgCount - 1 }
  | .running (h :: rest) =>
      { s with handlerPC := .running rest,
               hooksRun := s.hooksRun ++ [h],
               ctxCancelled := s.ctxCancelled || h == 0 }
  | .checkErr =>
    match s.opError with
    | some _ => { s with handlerPC := .done, exited := some 1 }
    | none => { s with handlerPC := .done }
  | .done => s

/-- One step of the main goroutine.  The payload is the return value of
the mode's blocking entry call, consumed when main is at running. -/
def stepMain (r : Option GoError) (s : MainState) : MainState :=
  match s.mainPC with
  | .running =>
    match s.mode with
    | .cli => { s with opError := r, mainPC := .sending }
    | .http =>
      if r.isSome && !s.ctxCancelled then
        { s with opError := r, mainPC := .sending }
      else { s with opError := r, mainPC := .waiting }
    | .desktop => { s with mainPC := .waiting }
  | .sending =>
    match s.handlerPC with
    | .awaitSignal =>
        { s with mainPC := .waiting, handlerPC := .running s.ops }
    | _ => s
  | .waiting =>
    if s.wgCount = 0 then { s with mainPC := .returned, exited := some 0 }
    else s
  | .returned => s

def step (s : MainState) (a : Act) : MainState :=
  if s.exited.isSome then s
  else
    match a with
    | .interrupt => stepInterrupt s
    | .listener => stepListener s
    | .handler => stepHandler s
    | .mainStep r => stepMain r s

def run (s : MainState) (acts : List Act) : MainState :=
  acts.foldl step s

/-- Initial state of the modelled fragment: main about to block in the
selected mode's entry call, both shutdown goroutines spawned, the hook
list already holding the registered cleanup actions (the context cancel
function is hook 0, the wallet close function hook 1 in the source). -/
def initState (m : Mode) (ops : List Nat) : MainState :=
  ⟨m, .running, .awaitFirst, .awaitSignal, ops, [], false, none, false, 1,
   [], none⟩

example :
    (run (initState .cli [0, 1])
      [.interrupt, .listener, .listener, .handler, .handler, .handler,
       .handler]).hooksRun = [0, 1] := by decide

theorem run_append (s : MainState) (l1 l2 : List Act) :
    run s (l1 ++ l2) = run (run s l1) l2 :=
  List.foldl_append _ _ _ _

theorem run_preserves {P : MainState → Prop}
    (hP : ∀ s a, P s → P (step s a)) :
    ∀ (acts : List Act) (s : MainState), P s → P (run s acts) := by
  intro acts
  induction acts with
  | nil => intro s hs; exact hs
  | cons a rest ih => intro s hs; exact ih (step s a) (hP s a hs)

/-- Relation between the handler's program counter and the hooks already
executed: nothing before the signal, a split of the registered list while
running, the whole registered list afterwards. -/
def hookInv (s : MainState) : Prop :=
  (s.handlerPC = .awaitSignal → s.hooksRun = []) ∧
  (∀ rest, s.handlerPC = .running rest → s.hooksRun ++ rest = s.ops) ∧
  ((s.handlerPC = .checkErr ∨ s.handlerPC = .done) → s.hooksRun = s.ops)


theorem hookInv_stepInterrupt (s : MainState) (h : hookInv s) :
    hookInv (stepInterrupt s) := by
  unfold stepInterrupt
  split
  · exact h
  · exact h

theorem hookInv_stepListener (s : MainState) (h : hookInv s) :
    hookInv (stepListener s) := by
  obtain ⟨h1, h2, h3⟩ := h
  unfold stepListener
  split
  · split
    · exact ⟨h1, h2, h3⟩
    · exact ⟨h1, h2, h3⟩
  · split
    · rename_i heq
      refine ⟨?_, ?_, ?_⟩
      · intro hc
        exact HandlerPC.noConfusion hc
      · intro rest hrest
        have hr : HandlerPC.running s.ops = HandlerPC.running rest := hrest
        cases hr
        rw [h1 heq]
        rfl
      · intro hc
        rcases hc with hc | hc <;> exact HandlerPC.noConfusion hc
    · exact ⟨h1, h2, h3⟩
  · split
    · exact ⟨h1, h2, h3⟩
    · exact ⟨h1, h2, h3⟩

theorem hookInv_stepHandler (s : MainState) (h : hookInv s) :
    hookInv (stepHandler s) := by
  obtain ⟨h1, h2, h3⟩ := h
  unfold stepHandler
  split
  · exact ⟨h1, h2, h3⟩
  · rename_i heq
    refine ⟨?_, ?_, ?_⟩
    · intro hc
      exact HandlerPC.noConfusion hc
    · intro rest hrest
      exact HandlerPC.noConfusion hrest
    · intro _
      have := h2 [] heq
      simpa using this
  · rename_i hd tl heq
    refine ⟨?_, ?_, ?_⟩
    · intro hc
      exact HandlerPC.noConfusion hc
    · intro rest hrest
      have hr : HandlerPC.running tl = HandlerPC.running rest := hrest
      cases hr
      have := h2 (hd :: tl) heq
      rw [List.append_assoc]
      exact this
    · intro hc
      rcases hc with hc | hc <;> exact HandlerPC.noConfusion hc
  · rename_i heq
    split
    · refine ⟨?_, ?_, ?_⟩
      · intro hc
        exact HandlerPC.noConfusion hc
      · intro rest hrest
        exact HandlerPC.noConfusion hrest
      · intro _
        exact h3 (Or.inl heq)
    · refine ⟨?_, ?_, ?_⟩
      · intro hc
        exact HandlerPC.noConfusion hc
      · intro rest hrest
        exact HandlerPC.noConfusion hrest
      · intro _
        exact h3 (Or.inl heq)
  · exact ⟨h1, h2, h3⟩

theorem hookInv_stepMain (r : Option GoError) (s : MainState)
    (h : hookInv s) : hookInv (stepMain r s) := by
  obtain ⟨h1, h2, h3⟩ := h
  unfold stepMain
  split
  · split
    · exact ⟨h1, h2, h3⟩
    · split
      · exact ⟨h1, h2, h3⟩
      · exact ⟨h1, h2, h3⟩
    · exact ⟨h1, h2, h3⟩
  · split
    · rename_i heq
      refine ⟨?_, ?_, ?_⟩
      · intro hc
        exact HandlerPC.noConfusion hc
      · intro rest hrest
        have hr : HandlerPC.running s.ops = HandlerPC.running rest := hrest
        cases hr
        rw [h1 heq]
        rfl
      · intro hc
        rcases hc with hc | hc <;> exact HandlerPC.noConfusion hc
    · exact ⟨h1, h2, h3⟩
  · split
    · exact ⟨h1, h2, h3⟩
    · exact ⟨h1, h2, h3⟩
  · exact ⟨h1, h2, h3⟩

theorem hookInv_step (s : MainState) (a : Act) (h : hookInv s) :
    hookInv (step s a) := by
  unfold step
  cases he : s.exited.isSome with
  | false =>
    simp only [he, Bool.false_eq_true, if_false]
    cases a with
    | interrupt => exact hookInv_stepInterrupt s h
    | listener => exact hookInv_stepListener s h
    | handler => exact hookInv_stepHandler s h
    | mainStep r => exact hookInv_stepMain r s h
  | true =>
    simp only [he, if_true]
    exact h

theorem hookInv_run (m : Mode) (ops : List Nat) (acts : List Act) :
    hookInv (run (initState m ops) acts) :=
  run_preserves hookInv_step acts (initState m ops)
    ⟨fun _ => rfl, fun rest h => by exact HandlerPC.noConfusion h,
     fun h => by rcases h with h | h <;> exact HandlerPC.noConfusion h⟩

/-- Exit statuses the model can produce and their relation to the
recorded operational error. -/
def exitInv (s : MainState) : Prop :=
  (s.exited = some 1 → s.opError ≠ none) ∧
  (∀ c, s.exited = some c → c = 0 ∨ c = 1)

theorem exitInv_stepInterrupt (s : MainState) (h : exitInv s) :
    exitInv (stepInterrupt s) := by
  unfold stepInterrupt
  split
  · exact h
  · exact h

theorem exitInv_stepListener (s : MainState) (h : exitInv s) :
    exitInv (stepListener s) := by
  obtain ⟨h1, h2⟩ := h
  unfold stepListener
  split
  · split
    · exact ⟨h1, h2⟩
    · exact ⟨h1, h2⟩
  · split
    · exact ⟨h1, h2⟩
    · exact ⟨h1, h2⟩
  · split
    · exact ⟨h1, h2⟩
    · exact ⟨h1, h2⟩

theorem exitInv_stepHandler (s : MainState) (h : exitInv s) :
    exitInv (stepHandler s) := by
  obtain ⟨h1, h2⟩ := h
  unfold stepHandler
  split
  · exact ⟨h1, h2⟩
  · exact ⟨h1, h2⟩
  · exact ⟨h1, h2⟩
  · split
    · rename_i ho
      refine ⟨?_, ?_⟩
      · intro _
        rw [ho]
        simp
      · intro c hc
        have hc' : (some 1 : Option Nat) = some c := hc
        cases hc'
        exact Or.inr rfl
    · exact ⟨h1, h2⟩
  · exact ⟨h1, h2⟩

theorem exitInv_stepMain (r : Option GoError) (s : MainState)
    (hnone : s.exited = none) (h : exitInv s) : exitInv (stepMain r s) := by
  unfold stepMain
  split
  · split
    · refine ⟨?_, ?_⟩
      · intro hc
        rw [show ({ s with opError := r, mainPC := .sending } : MainState).exited = s.exited from rfl, hnone] at hc
        exact Option.noConfusion hc
      · intro c hc
        rw [show ({ s with opError := r, mainPC := .sending } : MainState).exited = s.exited from rfl, hnone] at hc
        exact Option.noConfusion hc
    · split
      · refine ⟨?_, ?_⟩
        · intro hc
          rw [show ({ s with opError := r, mainPC := .sending } : MainState).exited = s.exited from rfl, hnone] at hc
          exact Option.noConfusion hc
        · intro c hc
          rw [show ({ s with opError := r, mainPC := .sending } : MainState).exited = s.exited from rfl, hnone] at hc
          exact Option.noConfusion hc
      · refine ⟨?_, ?_⟩
        · intro hc
          rw [show ({ s with opError := r, mainPC := .waiting } : MainState).exited = s.exited from rfl, hnone] at hc
          exact Option.noConfusion hc
        · intro c hc
          rw [show ({ s with opError := r, mainPC := .waiting } : MainState).exited = s.exited from rfl, hnone] at hc
          exact Option.noConfusion hc
    · refine ⟨?_, ?_⟩
      · intro hc
        rw [show ({ s with mainPC := .waiting } : MainState).exited = s.exited from rfl, hnone] at hc
        exact Option.noConfusion hc
      · intro c hc
        rw [show ({ s with mainPC := .waiting } : MainState).exited = s.exited from rfl, hnone] at hc
        exact Option.noConfusion hc
  · split
    · exact h
    · exact h
  · split
    · refine ⟨?_, ?_⟩
      · intro hc
        have hc' : (some 0 : Option Nat) = some 1 := hc
        cases hc'
      · intro c hc
        have hc' : (some 0 : Option Nat) = some c := hc
        cases hc'
        exact Or.inl rfl
    · exact h
  · exact h

theorem exitInv_step (s : MainState) (a : Act) (h : exitInv s) :
    exitInv (step s a) := by
  unfold step
  cases he : s.exited.isSome with
  | false =>
    have hnone : s.exited = none := by
      cases hx : s.exited with
      | none => rfl
      | some c => rw [hx] at he; simp at he
    simp only [he, Bool.false_eq_true, if_false]
    cases a with
    | interrupt => exact exitInv_stepInterrupt s h
    | listener => exact exitInv_stepListener s h
    | handler => exact exitInv_stepHandler s h
    | mainStep r => exact exitInv_stepMain r s hnone h
  | true =>
    simp only [he, if_true]
    exact h

theorem exitInv_run (m : Mode) (ops : List Nat) (acts : List Act) :
    exitInv (run (initState m ops) acts) :=
  run_preserves exitInv_step acts (initState m ops)
    ⟨fun hc => Option.noConfusion hc, fun _ hc => Option.noConfusion hc⟩

/-- Absorbing configuration behind the second-trigger claim: main blocked
in its unbuffered beginShutdown send, the handler already finished (its
single receive consumed), the process not exited. -/
def StuckSend (s : MainState) : Prop :=
  s.mainPC = .sending ∧ s.handlerPC = .done ∧ s.exited = none

theorem stuckSend_stepInterrupt (s : MainState) (h : StuckSend s) :
    StuckSend (stepInterrupt s) := by
  obtain ⟨hm, hh, he⟩ := h
  unfold stepInterrupt
  split
  · exact ⟨hm, hh, he⟩
  · exact ⟨hm, hh, he⟩

theorem stuckSend_stepListener (s : MainState) (h : StuckSend s) :
    StuckSend (stepListener s) := by
  obtain ⟨hm, hh, he⟩ := h
  unfold stepListener
  split
  · split
    · exact ⟨hm, hh, he⟩
    · exact ⟨hm, hh, he⟩
  · split
    · rename_i heq
      rw [hh] at heq
      exact HandlerPC.noConfusion heq
    · exact ⟨hm, hh, he⟩
  · split
    · exact ⟨hm, hh, he⟩
    · exact ⟨hm, hh, he⟩

theorem stuckSend_stepHandler (s : MainState) (h : StuckSend s) :
    StuckSend (stepHandler s) := by
  obtain ⟨hm, hh, he⟩ := h
  unfold stepHandler
  rw [hh]
  exact ⟨hm, hh, he⟩

theorem stuckSend_stepMain (r : Option GoError) (s : MainState)
    (h : StuckSend s) : StuckSend (stepMain r s) := by
  obtain ⟨hm, hh, he⟩ := h
  unfold stepMain
  rw [hm, hh]
  exact ⟨hm, hh, he⟩

theorem stuckSend_step (s : MainState) (a : Act) (h : StuckSend s) :
    StuckSend (step s a) := by
  unfold step
  cases he : s.exited.isSome with
  | false =>
    simp only [he, Bool.false_eq_true, if_false]
    cases a with
    | interrupt => exact stuckSend_stepInterrupt s h
    | listener => exact stuckSend_stepListener s h
    | handler => exact stuckSend_stepHandler s h
    | mainStep r => exact stuckSend_stepMain r s h
  | true =>
    simp only [he, if_true]
    exact h

theorem RequestInput_skip (v : String → Option String) (s : String)
    (rest : List String) (h : v s ≠ none) :
    RequestInput v (s :: rest) = RequestInput v rest := by
  cases hv : v s with
  | none => exact absurd hv h
  | some m => simp [RequestInput, hv]

theorem RequestInputSecure_skip (v : String → Option String) (s : String)
    (rest : List String) (h : v s ≠ none) :
    RequestInputSecure v (s :: rest) = RequestInputSecure v rest := by
  cases hv : v s with
  | none => exact absurd hv h
  | some m => simp [RequestInputSecure, hv]

theorem RequestInput_accept (v : String → Option String) (s : String)
    (rest : List String) (h : v s = none) :
    RequestInput v (s :: rest) = .ok (s, rest) := by
  simp [RequestInput, h]

theorem RequestInputSecure_accept (v : String → Option String) (s : String)
    (rest : List String) (h : v s = none) :
    RequestInputSecure v (s :: rest) = .ok (s, rest) := by
  simp [RequestInputSecure, h]

/-- Any line accepted by a prompt running the spec-modelled
EmptyValidator is non-empty. -/
theorem requestInputSecure_accepted_nonempty :
    ∀ (l : List String) (p : String) (rest : List String),
      RequestInputSecure EmptyValidator l = .ok (p, rest) → p ≠ "" := by
  intro l
  induction l with
  | nil =>
    intro p rest h
    exact Except.noConfusion h
  | cons x xs ih =>
    intro p rest h
    by_cases hx : x = ""
    · subst hx
      rw [RequestInputSecure_skip _ _ _ (by simp [EmptyValidator])] at h
      exact ih p rest h
    · rw [RequestInputSecure_accept _ _ _ (by simp [EmptyValidator, hx])] at h
      have h' : (x, xs) = (p, rest) := by injection h
      have hxp : x = p := congrArg Prod.fst h'
      subst hxp
      exact hx

theorem syncBlockChain_calls (mw : WalletMiddleware) (c : Bool) :
    (syncBlockChain mw c).2 = [.syncBlockChain] := by
  unfold syncBlockChain
  split
  · rfl
  · split
    · rfl
    · split
      · rfl
      · rfl

/-- C1: for every pair of entered passphrases with p1 ≠ p2 (both accepted
by the secure prompt, hence non-empty), createWallet returns the
passphrase-mismatch error and the middleware call log is exactly the
initial existence check: the finalize-creation operation
CreateWallet(passphrase, seed) is never called, and GenerateNewWalletSeed
is never called after the mismatch is detected. -/
theorem createWallet_mismatch_no_finalize
    (mw : WalletMiddleware) (syncCancelWins : Bool)
    (p1 p2 : String) (rest : List String)
    (hwe : mw.walletExists = .ok false)
    (hp1 : p1 ≠ "") (hp2 : p2 ≠ "") (hne : p1 ≠ p2) :
    createWallet mw syncCancelWins (p1 :: p2 :: rest) =
      (.error (.errorf "passphrases do not match"), [.walletExists]) := by
  have e1 : RequestInputSecure EmptyValidator (p1 :: p2 :: rest) =
      .ok (p1, p2 :: rest) :=
    RequestInputSecure_accept _ _ _ (by simp [EmptyValidator, hp1])
  have e2 : RequestInputSecure EmptyValidator (p2 :: rest) = .ok (p2, rest) :=
    RequestInputSecure_accept _ _ _ (by simp [EmptyValidator, hp2])
  simp [createWallet, hwe, e1, e2, hne]

/-- Witness for C1 at a concrete mismatching pair. -/
theorem createWallet_mismatch_no_finalize_witness :
    createWallet
      ⟨.ok false, none, .ok "seed words", fun _ _ => none, none, none,
       "testnet"⟩
      false ["abc123", "abc124"] =
      (.error (.errorf "passphrases do not match"), [.walletExists]) :=
  createWallet_mismatch_no_finalize _ false "abc123" "abc124" []
    rfl (by decide) (by decide) (by decide)

/-- Sample middleware behaviour used to instantiate theorems at concrete
inputs: no wallet yet, every operation succeeds. -/
def mwSample : WalletMiddleware :=
  ⟨.ok false, none, .ok "seed words", fun _ _ => none, none, none,
   "testnet"⟩

/-- C4 counterexample: the source backupValidator accepts an input
wrapped in two pairs of double quotes, while the claim's normalization
(strip a single pair of surrounding quotes) does not make it equal to OK,
so the claim's "accepts exactly" is false at this input. -/
theorem backupValidator_double_quoted_counterexample :
    backupValidator "\"\"OK\"\"" = none ∧
    specBackupAccepts "\"\"OK\"\"" = false := by decide

theorem backupValidator_none_iff (s : String) :
    backupValidator s = none ↔
      (trimQuotes (TrimSpace s)).data.map toLowerAscii = ['o', 'k'] := by
  have hok : "OK".data.map toLowerAscii = ['o', 'k'] := by decide
  simp only [backupValidator, EqualFold]
  split
  · rename_i hcond
    have h1 : "OK".data.map toLowerAscii =
        (trimQuotes (TrimSpace s)).data.map toLowerAscii :=
      beq_iff_eq.mp hcond
    rw [← h1, hok]
    simp
  · rename_i hcond
    constructor
    · intro h
      exact Option.noConfusion h
    · intro h
      exfalso
      apply hcond
      rw [hok, h]
      exact beq_self_eq_true _

/-- C4 (amended): the backup-acknowledgment validator accepts exactly the
inputs that become equal to OK case-insensitively after trimming
surrounding whitespace and stripping all surrounding double-quote
characters (not merely a single pair); in particular it accepts "OK",
"ok" and a padded/quoted variant, rejects "K", "" and "no", and a
rejected input makes the prompt re-ask with the next line. -/
theorem backupValidator_amended :
    (∀ s : String, backupValidator s = none ↔
        (trimQuotes (TrimSpace s)).data.map toLowerAscii = ['o', 'k']) ∧
    (backupValidator "OK" = none ∧ backupValidator "ok" = none ∧
      backupValidator "  \"OK\"  " = none) ∧
    (backupValidator "K" ≠ none ∧ backupValidator "" ≠ none ∧
      backupValidator "no" ≠ none) ∧
    (∀ (s : String) (rest : List String), backupValidator s ≠ none →
      RequestInput backupValidator (s :: rest) =
        RequestInput backupValidator rest) :=
  ⟨backupValidator_none_iff, by decide, by decide,
   fun s rest h => RequestInput_skip _ s rest h⟩

/-- Witness for the amended C4 statement: the rejected input "no" is
re-prompted and the subsequent "OK" is accepted. -/
theorem backupValidator_amended_witness :
    RequestInput backupValidator ["no", "OK"] = .ok ("OK", []) := by
  rw [backupValidator_amended.2.2.2 "no" ["OK"] (by decide)]
  exact RequestInput_accept _ _ _ (by decide)

/-- C5 counterexample: the offer validator accepts " y ", an answer other
than "", "y", "Y", "N" and "n", because it trims and strips quotes before
comparing; so "answers other than empty, y/Y, or N/n are rejected by the
validator" is false at this input. -/
theorem validateUserResponse_accepts_padded :
    validateUserResponse " y " = none ∧
    " y " ≠ "" ∧ " y " ≠ "y" ∧ " y " ≠ "Y" ∧ " y " ≠ "N" ∧ " y " ≠ "n" := by
  decide

theorem openWallet_noWallet (mw : WalletMiddleware) (sc : Bool)
    (inputs : List String) (hwe : mw.walletExists = .ok false) :
    openWallet mw false sc inputs =
      ((attemptToCreateWallet mw sc inputs).1,
       MwCall.walletExists :: (attemptToCreateWallet mw sc inputs).2) := by
  unfold openWallet loadWalletTask
  simp [hwe]

theorem attempt_decline (mw : WalletMiddleware) (sc : Bool) (ans : String)
    (rest : List String) (hv : validateUserResponse ans = none)
    (hd : (ans == "" || EqualFold "N" ans) = true) :
    attemptToCreateWallet mw sc (ans :: rest) =
      (.error (.errorf "Wallet doesn't exist"), []) := by
  unfold attemptToCreateWallet
  rw [RequestInput_accept _ _ _ hv]
  simp [hd]

theorem EqualFold_eq_true_iff (s t : String) :
    EqualFold s t = true ↔
      s.data.map toLowerAscii = t.data.map toLowerAscii := by
  unfold EqualFold
  exact beq_iff_eq

theorem validateUserResponse_none_iff (s : String) :
    validateUserResponse s = none ↔
      (trimQuotes (TrimSpace s) = "" ∨
       (trimQuotes (TrimSpace s)).data.map toLowerAscii = ['y'] ∨
       (trimQuotes (TrimSpace s)).data.map toLowerAscii = ['n']) := by
  have hy : "y".data.map toLowerAscii = ['y'] := by decide
  have hn : "N".data.map toLowerAscii = ['n'] := by decide
  simp only [validateUserResponse]
  split
  · rename_i hcond
    rw [Bool.or_eq_true, Bool.or_eq_true] at hcond
    constructor
    · intro _
      rcases hcond with (h | h) | h
      · exact Or.inl (beq_iff_eq.mp h)
      · exact Or.inr (Or.inl
          (((EqualFold_eq_true_iff _ _).mp h).symm.trans hy))
      · exact Or.inr (Or.inr
          (((EqualFold_eq_true_iff _ _).mp h).symm.trans hn))
    · intro _
      rfl
  · rename_i hcond
    rw [Bool.or_eq_true, Bool.or_eq_true] at hcond
    constructor
    · intro h
      exact Option.noConfusion h
    · intro h
      exfalso
      apply hcond
      rcases h with h | h | h
      · exact Or.inl (Or.inl (beq_iff_eq.mpr h))
      · exact Or.inl (Or.inr
          ((EqualFold_eq_true_iff _ _).mpr (hy.trans h.symm)))
      · exact Or.inr
          ((EqualFold_eq_true_iff _ _).mpr (hn.trans h.symm))

/-- C5 (amended): given no existing wallet, a raw answer of "", "N" or
"n" makes openWallet return the user-declined error ("Wallet doesn't
exist") with the existence check as the only middleware call; and the
offer validator accepts exactly the answers whose whitespace-trimmed,
quote-stripped form is empty, y/Y or N/n, re-prompting on every other
answer. -/
theorem openWallet_decline_amended :
    (∀ (mw : WalletMiddleware) (syncCancelWins : Bool) (ans : String),
      mw.walletExists = .ok false →
      (ans = "" ∨ ans = "N" ∨ ans = "n") →
      openWallet mw false syncCancelWins [ans] =
        (.error (.errorf "Wallet doesn't exist"), [.walletExists])) ∧
    (∀ s : String, validateUserResponse s = none ↔
      (trimQuotes (TrimSpace s) = "" ∨
       (trimQuotes (TrimSpace s)).data.map toLowerAscii = ['y'] ∨
       (trimQuotes (TrimSpace s)).data.map toLowerAscii = ['n'])) ∧
    (∀ (s : String) (rest : List String), validateUserResponse s ≠ none →
      RequestInput validateUserResponse (s :: rest) =
        RequestInput validateUserResponse rest) := by
  refine ⟨?_, validateUserResponse_none_iff,
          fun s rest h => RequestInput_skip _ s rest h⟩
  intro mw sc ans hwe hans
  have hv : validateUserResponse ans = none := by
    rcases hans with h | h | h <;> subst h <;> decide
  have hd : (ans == "" || EqualFold "N" ans) = true := by
    rcases hans with h | h | h <;> subst h <;> decide
  rw [openWallet_noWallet mw sc [ans] hwe, attempt_decline mw sc ans [] hv hd]

/-- Witness for the amended C5 statement at the concrete answer "n". -/
theorem openWallet_decline_amended_witness :
    openWallet mwSample false false ["n"] =
      (.error (.errorf "Wallet doesn't exist"), [.walletExists]) :=
  openWallet_decline_amended.1 mwSample false "n" rfl (Or.inr (Or.inr rfl))

/-- C6: if cancellation settles before the spawned existence-check/open
task completes, openWallet returns the context's cancellation error, for
every middleware behaviour whatsoever — so never a middleware error, even
if the middleware call would eventually have succeeded or failed. -/
theorem openWallet_cancelled_returns_ctx_err
    (mw : WalletMiddleware) (syncCancelWins : Bool) (inputs : List String) :
    (openWallet mw true syncCancelWins inputs).1 =
      .error .ctxCanceled := rfl

/-- C7: syncBlockChain returns ctx.Err() when cancellation settles first;
otherwise it returns exactly the value delivered on the single syncDone
completion channel (nil on success), and a sync that fails to even start
is reported through that same channel. -/
theorem syncBlockChain_result_channel (mw : WalletMiddleware) :
    ((syncBlockChain mw true).1 = .error .ctxCanceled) ∧
    (∀ v, syncDoneSends mw = [v] →
      (syncBlockChain mw false).1 =
        (match v with | some e => .error e | none => .ok ())) ∧
    (syncDoneSends mw).length = 1 ∧
    (∀ e, mw.syncStart = some e → syncDoneSends mw = [some e]) := by
  refine ⟨rfl, ?_, ?_, ?_⟩
  · intro v hv
    unfold syncDoneSends at hv
    cases hs : mw.syncStart with
    | some e =>
      rw [hs] at hv
      simp only [] at hv
      have hev : some e = v := by injection hv
      subst hev
      simp [syncBlockChain, hs]
    | none =>
      rw [hs] at hv
      simp only [] at hv
      have hev : mw.syncTerminal = v := by injection hv
      subst hev
      cases ht : mw.syncTerminal with
      | some e => simp [syncBlockChain, hs, ht]
      | none => simp [syncBlockChain, hs, ht]
  · unfold syncDoneSends
    split
    · rfl
    · rfl
  · intro e he
    simp [syncDoneSends, he]

/-- Witness for C7 at a middleware whose sync fails to start. -/
theorem syncBlockChain_result_channel_witness :
    syncDoneSends
      ⟨.ok true, none, .ok "s", fun _ _ => none,
       some (.external "sync rejected"), none, "mainnet"⟩ =
      [some (.external "sync rejected")] :=
  (syncBlockChain_result_channel _).2.2.2 _ rfl

/-- C10: the decline check in attemptToCreateWallet uses the raw accepted
answer: for every answer the offer validator accepts, wallet creation is
invoked unless the raw string is exactly empty or case-insensitively
equal to N; an answer like " n " that passes validation only after
normalization therefore triggers createWallet instead of a decline. -/
theorem attempt_raw_decline_check
    (mw : WalletMiddleware) (syncCancelWins : Bool) (ans : String)
    (rest : List String) (hv : validateUserResponse ans = none) :
    ((ans == "" || EqualFold "N" ans) = false →
      attemptToCreateWallet mw syncCancelWins (ans :: rest) =
        createWallet mw syncCancelWins rest) ∧
    ((ans == "" || EqualFold "N" ans) = true →
      attemptToCreateWallet mw syncCancelWins (ans :: rest) =
        (.error (.errorf "Wallet doesn't exist"), [])) := by
  constructor
  · intro hd
    unfold attemptToCreateWallet
    rw [RequestInput_accept _ _ _ hv]
    simp [hd]
  · intro hd
    exact attempt_decline mw syncCancelWins ans rest hv hd

/-- Witness for C10: the padded answer " n " passes validation and
triggers wallet creation rather than a decline. -/
theorem attempt_raw_decline_check_witness :
    attemptToCreateWallet mwSample false [" n ", "abc123", "abc123", "OK"] =
      createWallet mwSample false ["abc123", "abc123", "OK"] :=
  (attempt_raw_decline_check mwSample false " n "
      ["abc123", "abc123", "OK"] (by decide)).1 (by decide)

theorem createWallet_call_nonempty
    (mw : WalletMiddleware) (sc : Bool) (inputs : List String)
    (p seed : String)
    (hmem : MwCall.createWallet p seed ∈ (createWallet mw sc inputs).2) :
    p ≠ "" := by
  unfold createWallet at hmem
  cases hwe : mw.walletExists with
  | error e =>
    simp only [hwe] at hmem
    simp at hmem
  | ok b =>
    cases b with
    | true =>
      simp only [hwe] at hmem
      simp at hmem
    | false =>
      simp only [hwe] at hmem
      cases h1 : RequestInputSecure EmptyValidator inputs with
      | error e =>
        simp only [h1] at hmem
        simp at hmem
      | ok pr1 =>
        obtain ⟨pp, rest1⟩ := pr1
        simp only [h1] at hmem
        cases h2 : RequestInputSecure EmptyValidator rest1 with
        | error e =>
          simp only [h2] at hmem
          simp at hmem
        | ok pr2 =>
          obtain ⟨cpp, rest2⟩ := pr2
          simp only [h2] at hmem
          by_cases heqp : pp = cpp
          · simp only [if_pos heqp] at hmem
            cases h3 : mw.generateNewWalletSeed with
            | error e =>
              simp only [h3] at hmem
              simp at hmem
            | ok seedv =>
              simp only [h3] at hmem
              cases h4 : RequestInput backupValidator rest2 with
              | error e =>
                simp only [h4] at hmem
                simp at hmem
              | ok pr4 =>
                obtain ⟨resp, rest4⟩ := pr4
                simp only [h4] at hmem
                cases h5 : mw.createWallet pp seedv with
                | some e =>
                  simp only [h5] at hmem
                  simp at hmem
                  rw [hmem.1]
                  exact requestInputSecure_accepted_nonempty inputs pp rest1 h1
                | none =>
                  simp only [h5] at hmem
                  simp [syncBlockChain_calls] at hmem
                  rw [hmem.1]
                  exact requestInputSecure_accepted_nonempty inputs pp rest1 h1
          · simp only [if_neg heqp] at hmem
            simp at hmem

/-- C9: the secure passphrase prompt's validator rejects the empty
string, an empty entry makes the prompt re-ask with the next line, and
every middleware CreateWallet finalization call produced by createWallet
carries a non-empty passphrase. -/
theorem createWallet_passphrase_nonempty :
    (EmptyValidator "" ≠ none) ∧
    (∀ rest : List String,
      RequestInputSecure EmptyValidator ("" :: rest) =
        RequestInputSecure EmptyValidator rest) ∧
    (∀ (mw : WalletMiddleware) (syncCancelWins : Bool)
        (inputs : List String) (p seed : String),
      MwCall.createWallet p seed ∈
          (createWallet mw syncCancelWins inputs).2 →
      p ≠ "") :=
  ⟨by simp [EmptyValidator],
   fun rest => RequestInputSecure_skip _ _ _ (by simp [EmptyValidator]),
   fun mw sc inputs p seed h => createWallet_call_nonempty mw sc inputs p seed h⟩

/-- Witness for C9 on a complete successful creation run: the passphrase
in the recorded CreateWallet call is non-empty. -/
theorem createWallet_passphrase_nonempty_witness : ("abc123" : String) ≠ "" :=
  createWallet_passphrase_nonempty.2.2 mwSample false
    ["abc123", "abc123", "OK"] "abc123" "seed words" (by decide)

theorem stepInterrupt_ops (s : MainState) : (stepInterrupt s).ops = s.ops := by
  unfold stepInterrupt
  split <;> rfl

theorem stepListener_ops (s : MainState) : (stepListener s).ops = s.ops := by
  unfold stepListener
  split
  · split <;> rfl
  · split <;> rfl
  · split <;> rfl

theorem stepHandler_ops (s : MainState) : (stepHandler s).ops = s.ops := by
  unfold stepHandler
  split
  · rfl
  · rfl
  · rfl
  · split <;> rfl
  · rfl

theorem stepMain_ops (r : Option GoError) (s : MainState) :
    (stepMain r s).ops = s.ops := by
  unfold stepMain
  split
  · split
    · rfl
    · split <;> rfl
    · rfl
  · split <;> rfl
  · split <;> rfl
  · rfl

theorem step_ops (s : MainState) (a : Act) : (step s a).ops = s.ops := by
  unfold step
  cases he : s.exited.isSome with
  | true => simp [he]
  | false =>
    simp only [he, Bool.false_eq_true, if_false]
    cases a with
    | interrupt => exact stepInterrupt_ops s
    | listener => exact stepListener_ops s
    | handler => exact stepHandler_ops s
    | mainStep r => exact stepMain_ops r s

theorem run_ops (s : MainState) (acts : List Act) :
    (run s acts).ops = s.ops := by
  induction acts generalizing s with
  | nil => rfl
  | cons a rest ih =>
    show (run (step s a) rest).ops = s.ops
    rw [ih (step s a), step_ops]

/-- C2: across every schedule of the interrupt listener, the shutdown
handler and main, the executed hook trace is a prefix of the registered
list, and equals the whole registered list once the handler has passed
its hook loop — hooks run exactly once, synchronously, in strict
registration order, with no later hook skipped (hooks have no failure
channel to abort the loop).  Moreover, consuming an interrupt while
shutdown is in progress (listener in its acknowledge loop) appends the
already-shutting-down log message and runs no hook again. -/
theorem shutdown_hooks_exactly_once :
    (∀ (m : Mode) (ops : List Nat) (acts : List Act),
      (∃ rest, (run (initState m ops) acts).hooksRun ++ rest = ops) ∧
      ((run (initState m ops) acts).handlerPC = .checkErr ∨
          (run (initState m ops) acts).handlerPC = .done →
        (run (initState m ops) acts).hooksRun = ops)) ∧
    (∀ s : MainState, s.exited = none → s.listenerPC = .loop →
      s.pendingInterrupt = true →
      (step s .listener).hooksRun = s.hooksRun ∧
      (step s .listener).handlerPC = s.handlerPC ∧
      (step s .listener).logs = .alreadyShuttingDown :: s.logs) := by
  constructor
  · intro m ops acts
    obtain ⟨h1, h2, h3⟩ := hookInv_run m ops acts
    have hops : (run (initState m ops) acts).ops = ops := run_ops _ _
    constructor
    · cases hpc : (run (initState m ops) acts).handlerPC with
      | awaitSignal =>
        refine ⟨ops, ?_⟩
        rw [h1 hpc, List.nil_append]
      | running rem =>
        refine ⟨rem, ?_⟩
        have := h2 rem hpc
        rw [hops] at this
        exact this
      | checkErr =>
        refine ⟨[], ?_⟩
        rw [List.append_nil, h3 (Or.inl hpc), hops]
      | done =>
        refine ⟨[], ?_⟩
        rw [List.append_nil, h3 (Or.inr hpc), hops]
    · intro hpc
      rcases hpc with hpc | hpc
      · rw [h3 (Or.inl hpc), hops]
      · rw [h3 (Or.inr hpc), hops]
  · intro s he hl hp
    have hsome : s.exited.isSome = false := by rw [he]; rfl
    unfold step stepListener
    simp only [hsome, Bool.false_eq_true, if_false]
    rw [hl]
    simp [hp]

/-- Witness for C2: a run with a second interrupt during shutdown still
executes the hooks exactly once, and the acknowledging step logs without
touching the hook trace. -/
theorem shutdown_hooks_exactly_once_witness :
    (run (initState .cli [0, 1])
      [.interrupt, .listener, .listener, .handler, .handler,
       .handler]).hooksRun = [0, 1] ∧
    (step (run (initState .cli [0, 1])
        [.interrupt, .listener, .listener, .interrupt]) .listener).logs =
      .alreadyShuttingDown ::
        (run (initState .cli [0, 1])
          [.interrupt, .listener, .listener, .interrupt]).logs :=
  ⟨(shutdown_hooks_exactly_once.1 .cli [0, 1]
      [.interrupt, .listener, .listener, .handler, .handler,
       .handler]).2 (Or.inl (by decide)),
   (shutdown_hooks_exactly_once.2 _ (by decide) (by decide)
      (by decide)).2.2⟩

/-- C3 (code bug): in interactive (cli) mode, when the interrupt arrives
first and the shutdown handler finishes before cli.Run returns, main's
subsequent unconditional send on the unbuffered beginShutdown channel
blocks forever: in every extension of the schedule main stays blocked at
the send and the process never exits.  The second trigger path is a
blocking send, not a no-op. -/
theorem cliMode_second_trigger_blocks (acts : List Act) :
    (run (initState .cli [0, 1])
      ([.interrupt, .listener, .listener, .handler, .handler, .handler,
        .handler, .mainStep none] ++ acts)).mainPC = .sending ∧
    (run (initState .cli [0, 1])
      ([.interrupt, .listener, .listener, .handler, .handler, .handler,
        .handler, .mainStep none] ++ acts)).exited = none := by
  have hbase : StuckSend (run (initState .cli [0, 1])
      [.interrupt, .listener, .listener, .handler, .handler, .handler,
       .handler, .mainStep none]) := by
    refine ⟨?_, ?_, ?_⟩ <;> decide
  rw [run_append]
  have hstuck := run_preserves stuckSend_step acts _ hbase
  exact ⟨hstuck.1, hstuck.2.2⟩

/-- C8 counterexample: a schedule in which, after the wait-group release,
main's return wins the race against the handler's error check: all hooks
have completed and an operational error was recorded, yet the process
exits with status 0. -/
theorem exit_code_race_counterexample :
    (run (initState .cli [0, 1])
      [.mainStep (some (.errorf "run failed")), .mainStep none, .handler,
       .handler, .handler, .mainStep none]).exited = some 0 ∧
    (run (initState .cli [0, 1])
      [.mainStep (some (.errorf "run failed")), .mainStep none, .handler,
       .handler, .handler, .mainStep none]).opError =
      some (.errorf "run failed") ∧
    (run (initState .cli [0, 1])
      [.mainStep (some (.errorf "run failed")), .mainStep none, .handler,
       .handler, .handler, .mainStep none]).hooksRun = [0, 1] := by
  refine ⟨?_, ?_, ?_⟩ <;> decide

/-- C8 (amended): whenever the process exits, the status is 0 or 1;
status 1 occurs only if an operational error was recorded; and if no
operational error was recorded the status is 0.  The converse — a
recorded error guarantees status 1 — fails, because after the wait-group
release the handler's error check races against main's return. -/
theorem exit_code_amended (m : Mode) (ops : List Nat) (acts : List Act)
    (c : Nat) (hexit : (run (initState m ops) acts).exited = some c) :
    (c = 1 → (run (initState m ops) acts).opError ≠ none) ∧
    (c = 0 ∨ c = 1) ∧
    ((run (initState m ops) acts).opError = none → c = 0) := by
  obtain ⟨h1, h2⟩ := exitInv_run m ops acts
  refine ⟨?_, h2 c hexit, ?_⟩
  · intro hc
    subst hc
    exact h1 hexit
  · intro hop
    rcases h2 c hexit with h | h
    · exact h
    · subst h
      exact absurd hop (h1 hexit)

/-- Witness for the amended C8 statement on a schedule where the handler
wins the race and exits with status 1. -/
theorem exit_code_amended_witness :
    (run (initState .cli [0, 1])
      [.mainStep (some (.errorf "run failed")), .mainStep none, .handler,
       .handler, .handler, .handler]).opError ≠ none :=
  (exit_code_amended .cli [0, 1]
    [.mainStep (some (.errorf "run failed")), .mainStep none, .handler,
     .handler, .handler, .handler] 1 (by decide)).1 rfl
